import Mathlib

/-!
Verification development for the transit-arrivals backend: shallow embedding
of the realtime reconciler, the static ingester and the index builders,
with theorems settling the specification's claims about them.

Timestamps are modelled as `Int` (milliseconds since the epoch, or POSIX
seconds where the wire format says so); database tables are lists of row
structures; fallible operations return `Except`.
-/

namespace NextAt

/-- Error type of the realtime reconciler (`realtime/error.rs`): a lookup
that finds nothing, malformed feed data, or an error surfaced by the
database layer. -/
inductive RtError where
  | notFound : String → RtError
  | invalidData : String → RtError
  | dbError : String → RtError
deriving DecidableEq, Repr

/-- One row of the materialized `stop_time_index` table.  `arrival_timestamp`
and `departure_timestamp` are scheduled instants in epoch milliseconds (the
generated entity exposes both as plain `i64`, hence non-null);
`updated_arrival_timestamp` is the nullable realtime-adjusted instant. -/
structure StiRow where
  stopId : String
  stopSequence : Int
  tripId : String
  tripRunId : Int
  arrivalTimestamp : Int
  departureTimestamp : Int
  updatedArrivalTimestamp : Option Int
deriving DecidableEq, Repr

/-- Wire-level `StopTimeEvent` (`structure/realtime.rs`): `delay` is in
seconds (an `i32` the handler widens to `i64`), `time` is an absolute event
time in POSIX seconds (`i64`). -/
structure StopTimeEvent where
  delay : Option Int
  time : Option Int
  uncertainty : Option Int
deriving DecidableEq, Repr

/-- Wire-level `StopTimeUpdate`: target stop by `stop_sequence` or
`stop_id`, with optional arrival and departure events. -/
structure StopTimeUpdate where
  stopSequence : Option Int
  stopId : Option String
  arrival : Option StopTimeEvent
  departure : Option StopTimeEvent
deriving DecidableEq, Repr

/-- Target-row resolution of `process_trip_update` (trip_update.rs):
match on `(update.stop_sequence, update.stop_id)`; a set `stop_sequence`
wins, else `stop_id`, else the update is invalid.  `stopTimes` is the
snapshot of this TripRun's rows fetched before the update loop. -/
def findStopTime (stopTimes : List StiRow) (u : StopTimeUpdate) :
    Except RtError StiRow :=
  match u.stopSequence, u.stopId with
  | some seq, _ =>
      match stopTimes.find? (fun st => st.stopSequence == seq) with
      | some st => .ok st
      | none => .error (.notFound "Stop time not found")
  | none, some sid =>
      match stopTimes.find? (fun st => st.stopId == sid) with
      | some st => .ok st
      | none => .error (.notFound "Stop time not found")
  | none, none => .error (.invalidData "Need stop_sequence or stop_id")

/-- The arrival delay the handler settles on:
`arrival.delay.map(|d| d as i64).or_else(|| arrival.time.map(|t| t - stop_time.arrival_timestamp))`.
Note the fallback subtracts the row's millisecond timestamp from the wire's
POSIX-second time. -/
def arrivalDelay (st : StiRow) (ev : StopTimeEvent) : Option Int :=
  match ev.delay with
  | some d => some d
  | none => ev.time.map (fun t => t - st.arrivalTimestamp)

/-- The departure delay, analogous to `arrivalDelay` but against
`departure_timestamp`. -/
def departureDelay (st : StiRow) (ev : StopTimeEvent) : Option Int :=
  match ev.delay with
  | some d => some d
  | none => ev.time.map (fun t => t - st.departureTimestamp)

/-- The per-row effect of the arrival-event bulk update: a row of this
TripRun with `stop_sequence >= seqAt` gets
`updated_arrival_timestamp = arrival_timestamp + delay * 1000`; any other
row is untouched. -/
def applyArrivalRow (runId seqAt delay : Int) (r : StiRow) : StiRow :=
  if r.tripRunId = runId ∧ seqAt ≤ r.stopSequence then
    { r with updatedArrivalTimestamp := some (r.arrivalTimestamp + delay * 1000) }
  else r

/-- The per-row effect of the departure-event bulk update: same column
expression, but only on rows with `stop_sequence > seqAt`. -/
def applyDepartureRow (runId seqAt delay : Int) (r : StiRow) : StiRow :=
  if r.tripRunId = runId ∧ seqAt < r.stopSequence then
    { r with updatedArrivalTimestamp := some (r.arrivalTimestamp + delay * 1000) }
  else r

/-- `StopTimeIndex::update_many` for an arrival event, over the whole
table. -/
def updateArrivalsFrom (rows : List StiRow) (runId seqAt delay : Int) :
    List StiRow :=
  rows.map (applyArrivalRow runId seqAt delay)

/-- `StopTimeIndex::update_many` for a departure event, over the whole
table. -/
def updateArrivalsAfter (rows : List StiRow) (runId seqAt delay : Int) :
    List StiRow :=
  rows.map (applyDepartureRow runId seqAt delay)

/-- Processing of a single `stop_time_update` by `process_trip_update`
(trip_update.rs lines 217-277): resolve the target row in the snapshot,
then apply the arrival event (rows with sequence `>=` the target's), then
the departure event (rows with sequence `>` the target's). -/
def applyStopTimeUpdate (runId : Int) (stopTimes rows : List StiRow)
    (u : StopTimeUpdate) : Except RtError (List StiRow) := do
  let st ← findStopTime stopTimes u
  let rows :=
    match u.arrival with
    | some ev =>
        match arrivalDelay st ev with
        | some delay => updateArrivalsFrom rows runId st.stopSequence delay
        | none => rows
    | none => rows
  let rows :=
    match u.departure with
    | some ev =>
        match departureDelay st ev with
        | some delay => updateArrivalsAfter rows runId st.stopSequence delay
        | none => rows
    | none => rows
  return rows

/-! ## The realtime poller loop (`realtime/mod.rs`, `monitor_firehose`) -/

/-- Feed header: the creation timestamp in POSIX seconds, optional on the
wire. -/
structure FeedHeaderM where
  timestamp : Option Int
deriving DecidableEq, Repr

/-- A fetched feed: its header and its entity batch (entities abstracted to
opaque labels; the loop only dispatches them). -/
structure FeedM where
  header : FeedHeaderM
  entity : List String
deriving DecidableEq, Repr

/-- Rust `PartialOrd` on `Option<DateTime<Utc>>` as used by
`updates.header.timestamp <= Some(last_update_time)`: `None` is below every
`Some`. -/
def optionIntLe : Option Int → Option Int → Bool
  | none, _ => true
  | some _, none => false
  | some a, some b => a ≤ b

/-- State of the poller loop: the `last_update_time` binding and the batches
applied so far (in order). -/
structure MonitorState where
  lastUpdateTime : Int
  appliedBatches : List FeedM
deriving DecidableEq, Repr

/-- One iteration of `monitor_firehose` on a successfully fetched feed: if
`header.timestamp <= Some(last_update_time)` the batch is skipped, otherwise
its entities are processed and the batch committed.  NOTE: the source never
reassigns `last_update_time` (it is an immutable binding initialised to the
epoch), so the state's `lastUpdateTime` is left unchanged in both branches,
exactly as in the source. -/
def monitorStep (s : MonitorState) (feed : FeedM) : MonitorState :=
  if optionIntLe feed.header.timestamp (some s.lastUpdateTime) then s
  else { s with appliedBatches := s.appliedBatches ++ [feed] }

/-- The poller loop run over a finite sequence of successful fetches,
starting from `last_update_time = Utc.timestamp_opt(0, 0)` (the epoch). -/
def monitorFirehose (feeds : List FeedM) : MonitorState :=
  feeds.foldl monitorStep { lastUpdateTime := 0, appliedBatches := [] }

/-! ## The static ingester (`sync.rs`)

Each schedule table is a list of rows carrying the table's natural key,
its remaining columns (abstracted to a payload type `α`), and `import_id`.
Per file, `insert_from_csv` emits one SQL batch: `DELETE ... WHERE
import_id < G` followed by `INSERT ... SELECT ..., G AS import_id ... ON
CONFLICT(key) DO UPDATE SET` every column (feed_info has no conflict
target and is a plain insert). -/

/-- A live schedule-table row: natural key, the other columns, and the
generation that wrote it. -/
structure TableRow (K D : Type) where
  key : K
  data : D
  importId : Int
deriving DecidableEq, Repr

/-- The upsert of one CSV row at generation `g`: on a key conflict every
column, `import_id` included, is overwritten; otherwise the row is
appended. -/
def upsertRow [DecidableEq K] (table : List (TableRow K D)) (k : K) (d : D)
    (g : Int) : List (TableRow K D) :=
  if table.any (fun r => r.key == k) then
    table.map (fun r => if r.key == k then ⟨k, d, g⟩ else r)
  else table ++ [⟨k, d, g⟩]

/-- `insert_from_csv!` for a table with a conflict target: the batch first
deletes every row with `import_id < g`, then upserts each CSV row with
`import_id = g`. -/
def insertFromCsv [DecidableEq K] (g : Int) (csv : List (K × D))
    (table : List (TableRow K D)) : List (TableRow K D) :=
  let cleaned := table.filter (fun r => !(decide (r.importId < g)))
  csv.foldl (fun t rd => upsertRow t rd.1 rd.2 g) cleaned

/-- `insert_from_csv!` for feed_info, whose key list is empty: the same
delete, then a plain insert of each CSV row with `import_id = g`. -/
def insertFromCsvNoKey (g : Int) (csv : List D)
    (table : List (TableRow Unit D)) : List (TableRow Unit D) :=
  let cleaned := table.filter (fun r => !(decide (r.importId < g)))
  cleaned ++ csv.map (fun d => ⟨(), d, g⟩)

/-- The nine live schedule tables, keyed by their natural keys
(feed_info none; agency, calendar, routes, trips and stops a single string;
calendar_dates, shapes and stop_times a string-and-integer pair). -/
structure ScheduleTables (α : Type) where
  feedInfo : List (TableRow Unit α)
  agency : List (TableRow String α)
  calendar : List (TableRow String α)
  calendarDates : List (TableRow (String × Int) α)
  routes : List (TableRow String α)
  trips : List (TableRow String α)
  shapes : List (TableRow (String × Int) α)
  stops : List (TableRow String α)
  stopTimes : List (TableRow (String × Int) α)
deriving DecidableEq

/-- The nine extracted CSV files, one keyed row list per table. -/
structure CsvBundle (α : Type) where
  feedInfo : List α
  agency : List (String × α)
  calendar : List (String × α)
  calendarDates : List ((String × Int) × α)
  routes : List (String × α)
  trips : List (String × α)
  shapes : List ((String × Int) × α)
  stops : List (String × α)
  stopTimes : List ((String × Int) × α)
deriving DecidableEq

/-- `import_csvs`: apply the per-file batch to each of the nine tables in
the fixed file order with the new generation `g`. -/
def importCsvs (g : Int) (csvs : CsvBundle α) (t : ScheduleTables α) :
    ScheduleTables α where
  feedInfo := insertFromCsvNoKey g csvs.feedInfo t.feedInfo
  agency := insertFromCsv g csvs.agency t.agency
  calendar := insertFromCsv g csvs.calendar t.calendar
  calendarDates := insertFromCsv g csvs.calendarDates t.calendarDates
  routes := insertFromCsv g csvs.routes t.routes
  trips := insertFromCsv g csvs.trips t.trips
  shapes := insertFromCsv g csvs.shapes t.shapes
  stops := insertFromCsv g csvs.stops t.stops
  stopTimes := insertFromCsv g csvs.stopTimes t.stopTimes

/-- `import_csvs`' running `insert_count`: `db.changes()` after each batch
is the row count of that file's insert statement. -/
def importCsvsCount (csvs : CsvBundle α) : Nat :=
  csvs.feedInfo.length + csvs.agency.length + csvs.calendar.length +
    csvs.calendarDates.length + csvs.routes.length + csvs.trips.length +
    csvs.shapes.length + csvs.stops.length + csvs.stopTimes.length

/-- One row of the `import` table: the monotonic generation id, the stored
`Last-Modified` value, and the row's creation timestamp. -/
structure ImportRow where
  id : Int
  fileLastModified : Option String
  timestamp : Int
deriving DecidableEq, Repr

/-- Persistent state touched by `sync()`: the import history, the nine
schedule tables and the synthetic service table. -/
structure SyncState (α : Type) where
  imports : List ImportRow
  tables : ScheduleTables α
  services : List String
deriving DecidableEq

/-- `Import::get_last_import`: `ORDER BY timestamp DESC LIMIT 1` — the row
with the greatest timestamp (the first such row under ties). -/
def getLastImport (imports : List ImportRow) : Option ImportRow :=
  imports.foldl
    (fun acc r =>
      match acc with
      | none => some r
      | some a => if a.timestamp < r.timestamp then some r else acc)
    none

/-- The id sqlite assigns to the freshly inserted `Import` row: one above
the largest id in the table. -/
def nextImportId (imports : List ImportRow) : Int :=
  (imports.foldl (fun m r => max m r.id) 0) + 1

/-- The archive endpoint's response: the `Last-Modified` header (if the
server sent one) and the nine extracted member files. -/
structure ArchiveResponse (α : Type) where
  lastModified : Option String
  files : CsvBundle α

/-- `get_gtfs_files_from_zip`'s freshness gate: when the response's
`Last-Modified` equals the stored value the function returns `None` and no
files are extracted; otherwise the header and the extracted files. -/
def getGtfsFilesFromZip (resp : ArchiveResponse α)
    (ifModifiedSince : Option String) :
    Option (Option String × CsvBundle α) :=
  if ifModifiedSince = resp.lastModified then none
  else some (resp.lastModified, resp.files)

/-- The synthetic-service refresh after an ingest: the distinct union of the
service ids present in calendar_dates and calendar, inserted into the
service table. -/
def serviceUnion (t : ScheduleTables α) : List String :=
  (t.calendarDates.map (fun r => r.key.1) ++ t.calendar.map (fun r => r.key)).dedup

/-- `Sync::do_sync` at instant `now` against a fetched response: read the
most recent import's stored `Last-Modified`; if the response's header equals
it, return 0 without touching anything; otherwise insert a fresh `Import`
row (its id `G` is the new generation), run `import_csvs`, refresh the
service table, record the header on the `Import` row, and return the
inserted-row count. -/
def doSync (now : Int) (resp : ArchiveResponse α) (st : SyncState α) :
    Nat × SyncState α :=
  let prevLastModified := (getLastImport st.imports).bind (fun i => i.fileLastModified)
  match getGtfsFilesFromZip resp prevLastModified with
  | none => (0, st)
  | some (lastModified, files) =>
      let g := nextImportId st.imports
      let imports := st.imports ++ [⟨g, none, now⟩]
      let tables := importCsvs g files st.tables
      let services := serviceUnion tables
      let imports := imports.map
        (fun r => if r.id == g then { r with fileLastModified := lastModified } else r)
      (importCsvsCount files,
        { imports := imports, tables := tables, services := services })

/-! ## The schedule date/time parser (`gtfs/utils.rs`, `GtfsDateTimeParser`)

`parse_date` reads `YYYYMMDD`; `parse_time` reads the first `HH:MM:SS`
match in the string (hours may exceed 24 and roll the date forward) and
resolves the resulting local datetime in the agency's zone.  The zone
database itself (chrono-tz) is external; a zone is modelled as a partial
map from local naive milliseconds to absolute milliseconds
(`from_local_datetime(..).earliest()`), with UTC the identity. -/

/-- Date parsing error (`DateError`). -/
structure DateError where
  msg : String
deriving DecidableEq, Repr

/-- A resolved timezone: `fromLocalMillis` is
`tz.from_local_datetime(..).earliest()` on the local naive timestamp. -/
structure TzModel where
  name : String
  fromLocalMillis : Int → Option Int

/-- The timezone database: name resolution, as in `tz.parse::<Tz>()`. -/
def TzDb : Type := String → Option TzModel

/-- A zone database that resolves only UTC (sufficient for the concrete
scenarios; the full IANA database is outside the program). -/
def tzdbUtcOnly : TzDb := fun s =>
  if s = "UTC" then some ⟨"UTC", fun n => some n⟩ else none

/-- Numeric value of a decimal digit character. -/
def digitVal (c : Char) : Option Nat :=
  if c.isDigit then some (c.toNat - 48) else none

/-- Two decimal digits, as matched by one `(\d{2})` capture group. -/
def twoDigits (c1 c2 : Char) : Option Nat := do
  let a ← digitVal c1
  let b ← digitVal c2
  return a * 10 + b

/-- Proleptic-Gregorian leap year. -/
def isLeapYear (y : Int) : Bool :=
  (y % 4 == 0 && y % 100 != 0) || y % 400 == 0

/-- Days in a month of the civil calendar. -/
def daysInMonth (y m : Int) : Int :=
  if m = 2 then (if isLeapYear y then 29 else 28)
  else if m = 4 ∨ m = 6 ∨ m = 9 ∨ m = 11 then 30
  else 31

/-- A validated civil date (chrono's `NaiveDate`). -/
structure NaiveDate where
  year : Int
  month : Int
  day : Int
deriving DecidableEq, Repr

/-- Days since 1970-01-01 of a civil date (the standard civil-from-days
inverse, with floor division for the 400-year era). -/
def daysFromCivil (y m d : Int) : Int :=
  let y := if m ≤ 2 then y - 1 else y
  let era := Int.fdiv y 400
  let yoe := y - era * 400
  let mp := if 2 < m then m - 3 else m + 9
  let doy := Int.fdiv (153 * mp + 2) 5 + d - 1
  let doe := yoe * 365 + Int.fdiv yoe 4 - Int.fdiv yoe 100 + doy
  era * 146097 + doe - 719468

/-- `GtfsDateTimeParser::parse_date`: `NaiveDate::parse_from_str(date, "%Y%m%d")`
— four year digits, two month digits, two day digits, and calendar
validity. -/
def parseDate (s : String) : Except DateError NaiveDate :=
  match s.toList with
  | [y1, y2, y3, y4, m1, m2, d1, d2] =>
      match twoDigits y1 y2, twoDigits y3 y4, twoDigits m1 m2, twoDigits d1 d2 with
      | some hi, some lo, some mo, some da =>
          let y : Int := hi * 100 + lo
          if 1 ≤ mo ∧ mo ≤ 12 ∧ 1 ≤ da ∧ (da : Int) ≤ daysInMonth y mo then
            .ok ⟨y, mo, da⟩
          else .error ⟨"input is out of range"⟩
      | _, _, _, _ => .error ⟨"input contains invalid characters"⟩
  | _ => .error ⟨"premature end of input"⟩

/-- First match of the regex `(\d{2}):(\d{2}):(\d{2})` starting at the head
of the character list. -/
def matchTimeAt : List Char → Option (Nat × Nat × Nat)
  | h1 :: h2 :: c1 :: m1 :: m2 :: c2 :: s1 :: s2 :: _ =>
      if c1 = ':' ∧ c2 = ':' then do
        let h ← twoDigits h1 h2
        let m ← twoDigits m1 m2
        let s ← twoDigits s1 s2
        return (h, m, s)
      else none
  | _ => none

/-- Leftmost match of `(\d{2}):(\d{2}):(\d{2})` anywhere in the string, as
`Regex::captures` finds it. -/
def findTimeMatch : List Char → Option (Nat × Nat × Nat)
  | [] => none
  | c :: rest =>
      match matchTimeAt (c :: rest) with
      | some m => some m
      | none => findTimeMatch rest

/-- `GtfsDateTimeParser::parse_time`: resolve the zone, read `HH:MM:SS`
(the source unwraps the regex match, so a string with no match aborts;
modelled as an error), split hours into whole days plus `hour % 24`,
validate the clock time, add the day offset to the date, and resolve the
local datetime in the zone.  The result is the instant in epoch
milliseconds (`timestamp_millis`). -/
def parseTime (tzdb : TzDb) (date : NaiveDate) (time : String) (tz : String) :
    Except DateError Int := do
  let some tzm := tzdb tz | .error ⟨"Invalid timezone"⟩
  let some (rawHour, minute, second) := findTimeMatch time.toList
    | .error ⟨"no time match"⟩
  let daysOffset : Int := rawHour / 24
  let hour := rawHour % 24
  if minute ≥ 60 ∨ second ≥ 60 then .error ⟨"Invalid time"⟩
  else
    let localMillis :=
      (daysFromCivil date.year date.month date.day + daysOffset) * 86400000 +
        ((hour : Int) * 3600 + (minute : Int) * 60 + (second : Int)) * 1000
    let some ms := tzm.fromLocalMillis localMillis | .error ⟨"Invalid time"⟩
    return ms

/-! ## Duplicated trip runs (`realtime/trip_update.rs`, `duplicate_trip_run`) -/

/-- Trip-level `ScheduleRelationship` with its wire discriminants. -/
inductive ScheduleRelationship where
  | scheduled
  | added
  | unscheduled
  | canceled
  | replacement
  | duplicated
  | deleted
deriving DecidableEq, Repr

/-- The enum's `as i32` values (Replacement is 5; 4 is unassigned). -/
def ScheduleRelationship.toInt : ScheduleRelationship → Int
  | .scheduled => 0
  | .added => 1
  | .unscheduled => 2
  | .canceled => 3
  | .replacement => 5
  | .duplicated => 6
  | .deleted => 7

/-- Wire-level `TripDescriptor` (the fields the handler reads). -/
structure TripDescriptor where
  tripId : Option String
  routeId : Option String
  directionId : Option Int
  startTime : Option String
  startDate : Option String
  scheduleRelationship : Option ScheduleRelationship
deriving DecidableEq, Repr

/-- A `gtfs_trips` row (the columns `duplicate_trip_run` reads). -/
structure GtfsTripRow where
  tripId : String
  routeId : String
  serviceId : String
  directionId : Int
deriving DecidableEq, Repr

/-- A `gtfs_routes` row (for the route → agency link). -/
structure GtfsRouteRow where
  routeId : String
  agencyId : String
deriving DecidableEq, Repr

/-- A `gtfs_agency` row: the timezone column is nullable. -/
structure GtfsAgencyRow where
  agencyId : String
  agencyTimezone : Option String
deriving DecidableEq, Repr

/-- A `gtfs_stop_times` row (the columns the copy loop reads). -/
structure GtfsStopTimeRow where
  tripId : String
  stopSequence : Int
  stopId : String
  arrivalTime : String
  departureTime : String
deriving DecidableEq, Repr

/-- A `trip_run` row. -/
structure TripRunRow where
  id : Int
  tripId : String
  routeId : String
  directionId : Int
  startDate : String
  startTimestamp : Int
  vehicleId : Option String
  scheduleRelationship : Int
deriving DecidableEq, Repr

/-- The database state the reconciler and indexer touch. -/
structure Db where
  trips : List GtfsTripRow
  routes : List GtfsRouteRow
  agencies : List GtfsAgencyRow
  stopTimes : List GtfsStopTimeRow
  tripRuns : List TripRunRow
  stopTimeIndex : List StiRow
  maintenanceMinute : Option Int
  nextTripRunId : Int
deriving DecidableEq, Repr

/-- A column reference as the ORM renders it in a filter: qualified by the
table of the entity the column belongs to. -/
structure ColumnRef where
  table : String
  column : String
deriving DecidableEq, Repr

/-- The tables the source-trip lookup of `duplicate_trip_run` actually
selects from: `GtfsTrips::find().find_also_linked(TripAgency)` reads
gtfs_trips joined through gtfs_routes to gtfs_agency. -/
def duplicateFindFromTables : List String :=
  ["gtfs_trips", "gtfs_routes", "gtfs_agency"]

/-- The filter the lookup applies:
`.filter(trip_run::Column::TripId.eq(&trip_id))` renders as a condition on
`"trip_run"."trip_id"` — a column of the `trip_run` entity, not of any
table in the statement. -/
def duplicateFindFilterColumn : ColumnRef := ⟨"trip_run", "trip_id"⟩

/-- The source-trip lookup of `duplicate_trip_run`.  sqlite resolves the
filter's column against the tables in the statement; a qualifier naming an
absent table makes the prepare fail, which the ORM surfaces as a database
error.  When the column does resolve, the lookup returns the first matching
trip together with its linked agency. -/
def findTripAlsoAgency (db : Db) (tripId : String) :
    Except RtError (GtfsTripRow × Option GtfsAgencyRow) :=
  if duplicateFindFilterColumn.table ∈ duplicateFindFromTables then
    match db.trips.find? (fun t => t.tripId == tripId) with
    | none => .error (.notFound "Trip not found")
    | some t =>
        .ok (t, (db.routes.find? (fun r => r.routeId == t.routeId)).bind
          (fun r => db.agencies.find? (fun a => a.agencyId == r.agencyId)))
  else .error (.dbError "no such column: trip_run.trip_id")

/-- `gtfs_stop_times` of the source trip, ordered by `stop_sequence`
ascending (insertion-order-stable merge sort, as sqlite's ORDER BY). -/
def sourceStopTimes (db : Db) (tripId : String) : List GtfsStopTimeRow :=
  (db.stopTimes.filter (fun st => st.tripId == tripId)).mergeSort
    (fun a b => a.stopSequence ≤ b.stopSequence)

/-- The copy loop's insert into `stop_time_index`.  The active model sets
only stop_id, stop_sequence, trip_id, trip_run_id and arrival_timestamp;
`departure_timestamp` is left unset, and that column is NOT NULL (the
generated entity exposes it as a plain `i64`), so the insert is rejected by
the database. -/
def insertDuplicateSti (_db : Db) (_stopId : String) (_stopSequence : Int)
    (_tripId : String) (_tripRunId : Int) (_arrivalTimestamp : Int) :
    Except RtError Db :=
  .error (.dbError "NOT NULL constraint failed: stop_time_index.departure_timestamp")

/-- `duplicate_trip_run`: require `start_date`, `start_time` and `trip_id`;
look up the source trip and its agency; compute the new start instant; if a
TripRun with (trip_id, start_timestamp) exists return it unchanged,
otherwise insert a new Duplicated TripRun and copy the source's stop times
under it, shifting each arrival by the stop's departure offset from the
first stop's departure. -/
def duplicateTripRun (tzdb : TzDb) (db : Db) (td : TripDescriptor) :
    Except RtError (TripRunRow × Db) := do
  let some startDate := td.startDate
    | .error (.invalidData "Need start_date to duplicate trip")
  let some startTime := td.startTime
    | .error (.invalidData "Need start_time to duplicate trip")
  let some tripId := td.tripId
    | .error (.invalidData "Need trip_id to duplicate trip")
  let (trip, agencyOpt) ← findTripAlsoAgency db tripId
  let some agency := agencyOpt | .error (.notFound "Agency not found for trip")
  let tz := agency.agencyTimezone.getD "UTC"
  let newDate ← (parseDate startDate).mapError (fun e => RtError.invalidData e.msg)
  let newDateTime ← (parseTime tzdb newDate startTime tz).mapError
    (fun e => RtError.invalidData e.msg)
  match db.tripRuns.find?
      (fun tr => tr.tripId == tripId && tr.startTimestamp == newDateTime) with
  | some existing => return (existing, db)
  | none =>
      let tripRun : TripRunRow :=
        { id := db.nextTripRunId, tripId := trip.tripId, routeId := trip.routeId
          directionId := trip.directionId, startDate := startDate
          startTimestamp := newDateTime, vehicleId := none
          scheduleRelationship := ScheduleRelationship.duplicated.toInt }
      let db := { db with tripRuns := db.tripRuns ++ [tripRun]
                          nextTripRunId := db.nextTripRunId + 1 }
      let stopTimes := sourceStopTimes db tripId
      match stopTimes with
      | [] => .error (.notFound "No stop times found for trip")
      | first :: _ =>
          let originalFirstTime ← (parseTime tzdb newDate first.departureTime tz).mapError
            (fun e => RtError.invalidData e.msg)
          let db ← stopTimes.foldlM
            (fun db st => do
              let originalDateTime ← (parseTime tzdb newDate st.departureTime tz).mapError
                (fun e => RtError.invalidData e.msg)
              let stopDelta := originalDateTime - originalFirstTime
              let arrival := newDateTime + stopDelta
              insertDuplicateSti db st.stopId st.stopSequence tripId
                tripRun.id arrival)
            db
          return (tripRun, db)

/-! ## The stop-time index rebuild (`gtfs/index.rs`, `do_build_stop_time_index`)

The day loop's input is the stream the prepared per-date query returns
(ordered by trip_id, stop_sequence), one stream per indexed date; the
`arrival_time`/`departure_time` strings have already passed through
`parse_time`, so a row carries the parsed epoch-millisecond instants.  The
whole rebuild runs in one transaction that is rolled back on any error. -/

/-- Error type of the index builder (`index.rs`, `Error::Other`). -/
inductive IndexError where
  | other : String → IndexError
deriving DecidableEq, Repr

/-- One streamed row of the per-date query. -/
structure DayRow where
  stopId : String
  stopSequence : Int
  tripId : String
  arrivalMillis : Int
  departureMillis : Int
  routeId : String
  directionId : Int
deriving DecidableEq, Repr

/-- One indexed date: its `%Y%m%d` rendering and the streamed rows. -/
structure DayStream where
  date : String
  rows : List DayRow
deriving DecidableEq, Repr

/-- The ten-minute bin of an arrival:
`arrival_time_millis % 86400000 / 600000` with Rust's truncating `%` and
`/` on `i64`. -/
def histPeriod (arrivalMillis : Int) : Int :=
  (Int.tmod arrivalMillis 86400000).tdiv 600000

/-- `period_counts.entry(period).and_modify(|c| *c += 1).or_insert(1)`: the
histogram as an association list, keys in first-seen order. -/
def bumpPeriod (counts : List (Int × Nat)) (p : Int) : List (Int × Nat) :=
  if counts.any (fun e => e.1 == p) then
    counts.map (fun e => if e.1 == p then (e.1, e.2 + 1) else e)
  else counts ++ [(p, 1)]

/-- The histogram's seed: all 144 bins at zero. -/
def initCounts : List (Int × Nat) :=
  (List.range 144).map (fun i => ((i : Int), 0))

/-- `min_by_key(|(_, &count)| count)`: the first entry with the minimum
count (ties keep the earlier element). -/
def minByCount : List (Int × Nat) → Option (Int × Nat)
  | [] => none
  | e :: rest =>
      some (rest.foldl (fun acc x => if x.2 < acc.2 then x else acc) e)

/-- Accumulator of the day loop: the database under the open transaction
and the running histogram. -/
structure DayLoopState where
  db : Db
  counts : List (Int × Nat)
deriving DecidableEq, Repr

/-- One streamed row: when `stop_sequence == 1` a TripRun is inserted (its
start is the first stop's departure) and becomes the current run; every row
then requires a current run (`"No trip run id"` otherwise), bumps the
arrival histogram, and inserts its `stop_time_index` row under the current
run. -/
def processDayRow (date : String) (runIdOpt : Option Int) (s : DayLoopState)
    (r : DayRow) : Except IndexError (Option Int × DayLoopState) := do
  let (runIdOpt, s) :=
    if r.stopSequence == 1 then
      let id := s.db.nextTripRunId
      let tripRun : TripRunRow :=
        { id := id, tripId := r.tripId, routeId := r.routeId
          directionId := r.directionId, startDate := date
          startTimestamp := r.departureMillis, vehicleId := none
          scheduleRelationship := ScheduleRelationship.scheduled.toInt }
      (some id,
        { s with db := { s.db with tripRuns := s.db.tripRuns ++ [tripRun]
                                   nextTripRunId := id + 1 } })
    else (runIdOpt, s)
  let some tripRunId := runIdOpt | .error (.other "No trip run id")
  let counts := bumpPeriod s.counts (histPeriod r.arrivalMillis)
  let row : StiRow :=
    { stopId := r.stopId, stopSequence := r.stopSequence, tripId := r.tripId
      tripRunId := tripRunId, arrivalTimestamp := r.arrivalMillis
      departureTimestamp := r.departureMillis, updatedArrivalTimestamp := none }
  return (runIdOpt,
    { db := { s.db with stopTimeIndex := s.db.stopTimeIndex ++ [row] }
      counts := counts })

/-- One date of the day loop: the current-run marker starts out unset for
each date. -/
def processDay (s : DayLoopState) (day : DayStream) :
    Except IndexError DayLoopState := do
  let (_, s) ← day.rows.foldlM
    (fun acc r => processDayRow day.date acc.1 acc.2 r)
    ((none : Option Int), s)
  return s

/-- The body of the rebuild transaction: truncate `trip_run`, drop and
recreate `stop_time_index`, stream every indexed date, then upsert
`MaintenanceTime(id=1, minute_of_day = min_bin * 10)` from the histogram
(`expect` on an empty histogram cannot fire: the seed has 144 bins). -/
def doBuildStopTimeIndexCore (days : List DayStream) (db : Db) :
    Except IndexError Db := do
  let db := { db with tripRuns := [], stopTimeIndex := [] }
  let s ← days.foldlM processDay { db := db, counts := initCounts }
  let some minPeriod := minByCount s.counts
    | .error (.other "No periods. Not initialised?")
  return { s.db with maintenanceMinute := some (minPeriod.1 * 10) }

/-- `do_build_stop_time_index` with its transaction semantics: on success
the new state is committed, on any error the transaction is dropped and the
database keeps its previous content. -/
def doBuildStopTimeIndex (days : List DayStream) (db : Db) : Db :=
  match doBuildStopTimeIndexCore days db with
  | .ok db2 => db2
  | .error _ => db

/-! ## Alert garbage collection (`realtime/alert.rs`, `cleanup_alerts`) -/

/-- An `alert` row.  `alert_id` is the external id; its sole writer
(`process_alert`) always sets it. -/
structure AlertRow where
  id : Int
  alertId : String
  cause : Option Int
  effect : Option Int
  headerText : Option String
  descriptionText : Option String
  timestamp : Option Int
deriving DecidableEq, Repr

/-- An `alert_active_period` row: bounds in epoch milliseconds, both set at
insert time (missing bounds were widened by `process_alert`). -/
structure AlertActivePeriodRow where
  id : Int
  alertId : String
  startTimestamp : Int
  endTimestamp : Int
deriving DecidableEq, Repr

/-- `cleanup_alerts` at instant `now`: delete every active period with
`end_timestamp < now`, then delete every alert whose `alert_id` is not in
the surviving periods' `alert_id`s. -/
def cleanupAlerts (now : Int) (periods : List AlertActivePeriodRow)
    (alerts : List AlertRow) :
    List AlertActivePeriodRow × List AlertRow :=
  let periods := periods.filter (fun p => !(decide (p.endTimestamp < now)))
  let alerts := alerts.filter (fun a => periods.any (fun p => p.alertId == a.alertId))
  (periods, alerts)

/-- Every row of a schedule table carries generation `g`. -/
def AllRowsAt {K D : Type} (g : Int) (t : List (TableRow K D)) : Prop :=
  ∀ r ∈ t, r.importId = g

/-- Every row of a schedule table predates generation `g`. -/
def AllRowsBelow {K D : Type} (g : Int) (t : List (TableRow K D)) : Prop :=
  ∀ r ∈ t, r.importId < g

/-- All nine schedule tables predate generation `g` (the state before an
ingest whose `Import` row got the fresh id `g`). -/
def TablesBelow {α : Type} (g : Int) (t : ScheduleTables α) : Prop :=
  AllRowsBelow g t.feedInfo ∧ AllRowsBelow g t.agency ∧
    AllRowsBelow g t.calendar ∧ AllRowsBelow g t.calendarDates ∧
    AllRowsBelow g t.routes ∧ AllRowsBelow g t.trips ∧
    AllRowsBelow g t.shapes ∧ AllRowsBelow g t.stops ∧
    AllRowsBelow g t.stopTimes

/-- All nine schedule tables are owned by generation `g`. -/
def TablesAt {α : Type} (g : Int) (t : ScheduleTables α) : Prop :=
  AllRowsAt g t.feedInfo ∧ AllRowsAt g t.agency ∧
    AllRowsAt g t.calendar ∧ AllRowsAt g t.calendarDates ∧
    AllRowsAt g t.routes ∧ AllRowsAt g t.trips ∧
    AllRowsAt g t.shapes ∧ AllRowsAt g t.stops ∧
    AllRowsAt g t.stopTimes

/-- Scenario S4's StopTimeIndex rows: sequences 1, 2, 3 at t, t+60000,
t+120000 under trip run 7. -/
def s4Rows : List StiRow :=
  [⟨"s1", 1, "T", 7, 1707100000000, 1707100000000, none⟩,
   ⟨"s2", 2, "T", 7, 1707100060000, 1707100060000, none⟩,
   ⟨"s3", 3, "T", 7, 1707100120000, 1707100120000, none⟩]

/-- Scenario S4's update: arrival delay 60 s at stop sequence 2. -/
def s4Update : StopTimeUpdate :=
  ⟨some 2, none, some ⟨some 60, none, none⟩, none⟩

/-- The arrival instants the rebuild materializes: every streamed row of
every indexed date yields exactly one `stop_time_index` row with its
arrival. -/
def materializedArrivals (days : List DayStream) : List Int :=
  ((days.map DayStream.rows).join).map (fun r => r.arrivalMillis)

/-- The specification-side histogram: how many of the given arrivals fall
in ten-minute bin `b`. -/
def specBinCount (arrivals : List Int) (b : Int) : Nat :=
  (arrivals.filter (fun a => histPeriod a == b)).length

/-! ## Theorems -/

/-- C2: the claim says that when an arrival event carries no delay but an
absolute time `t` (POSIX seconds on the wire), the stored updated arrival
equals `t` on the millisecond scale.  The code computes
`delay = t - arrival_timestamp` (seconds minus milliseconds) and then
applies `arrival_timestamp + delay * 1000`: at a row whose scheduled
arrival is 1707114000000 ms and an event with `time = 1707114886` s, the
stored value is -1703699771114000, not 1707114886000. -/
theorem trip_update_absolute_time_unit_bug :
    applyStopTimeUpdate 1
        [⟨"4221", 5, "T1", 1, 1707114000000, 1707114060000, none⟩]
        [⟨"4221", 5, "T1", 1, 1707114000000, 1707114060000, none⟩]
        ⟨some 5, none, some ⟨none, some 1707114886, some 0⟩, none⟩ =
      Except.ok [⟨"4221", 5, "T1", 1, 1707114000000, 1707114060000,
        some (-1703699771114000)⟩] ∧
      (-1703699771114000 : Int) ≠ 1707114886000 := by
  refine ⟨?_, by decide⟩
  rfl

/-- C3: the claim says a fetched feed whose header timestamp is not
strictly greater than the previously processed feed's is skipped.  The
source's `last_update_time` is an immutable binding initialised to the
epoch and never reassigned, so the guard compares every feed against 0:
two consecutive feeds with the same header timestamp 100 are both
applied. -/
theorem monitor_reapplies_stale_header :
    optionIntLe (some 100) (some 100) = true ∧
      monitorFirehose [⟨⟨some 100⟩, ["e1"]⟩, ⟨⟨some 100⟩, ["e2"]⟩] =
        ⟨0, [⟨⟨some 100⟩, ["e1"]⟩, ⟨⟨some 100⟩, ["e2"]⟩]⟩ := by
  exact ⟨rfl, rfl⟩

/-- C6: the claim describes the duplicated-trip path inserting a new
TripRun with copied stop times.  The handler's very first query filters
`GtfsTrips::find()` by `trip_run::Column::TripId`, which the ORM renders as
`"trip_run"."trip_id"` — a table absent from the statement — so the lookup
fails and the handler errors without inserting anything.  Evaluated at the
S5 scenario (source trip T, departures 10:00:00 and 10:01:00, duplicated at
2024-02-05 10:30:00 UTC). -/
theorem duplicate_trip_run_filter_column_bug :
    duplicateTripRun tzdbUtcOnly
        { trips := [⟨"T", "R1", "S1", 0⟩]
          routes := [⟨"R1", "AG"⟩]
          agencies := [⟨"AG", some "UTC"⟩]
          stopTimes := [⟨"T", 1, "X", "10:00:00", "10:00:00"⟩,
                        ⟨"T", 2, "Y", "10:01:00", "10:01:00"⟩]
          tripRuns := [], stopTimeIndex := []
          maintenanceMinute := none, nextTripRunId := 1 }
        ⟨some "T", none, none, some "10:30:00", some "20240205",
          some .duplicated⟩ =
      Except.error (.dbError "no such column: trip_run.trip_id") := by
  rfl

/-- C7: immediately after `cleanup_alerts` at instant `now`, every active
period with `end_timestamp < now` is gone, every alert with no surviving
active period is gone, and every surviving alert still has an active period
with `end_timestamp ≥ now`. -/
theorem alert_cleanup_gc_law (now : Int)
    (periods : List AlertActivePeriodRow) (alerts : List AlertRow) :
    (∀ p ∈ (cleanupAlerts now periods alerts).1, now ≤ p.endTimestamp) ∧
    (∀ p ∈ periods, p.endTimestamp < now →
      p ∉ (cleanupAlerts now periods alerts).1) ∧
    (∀ a ∈ alerts,
      (∀ p ∈ (cleanupAlerts now periods alerts).1, p.alertId ≠ a.alertId) →
      a ∉ (cleanupAlerts now periods alerts).2) ∧
    (∀ a ∈ (cleanupAlerts now periods alerts).2, ∃ p,
      p ∈ (cleanupAlerts now periods alerts).1 ∧ p.alertId = a.alertId ∧
        now ≤ p.endTimestamp) := by
  unfold cleanupAlerts
  refine ⟨?_, ?_, ?_, ?_⟩
  · intro p hp
    have := (List.mem_filter.mp hp).2
    simpa [not_lt] using this
  · intro p _ hlt hmem
    have := (List.mem_filter.mp hmem).2
    simp [hlt] at this
  · intro a _ hnone hmem
    have h2 := (List.mem_filter.mp hmem).2
    rcases List.any_eq_true.mp h2 with ⟨p, hp, hpe⟩
    exact hnone p hp (by simpa using hpe)
  · intro a hmem
    have h2 := (List.mem_filter.mp hmem).2
    rcases List.any_eq_true.mp h2 with ⟨p, hp, hpe⟩
    refine ⟨p, hp, by simpa using hpe, ?_⟩
    have := (List.mem_filter.mp hp).2
    simpa [not_lt] using this

/-- Closed instance of the alert GC law at a concrete state: one expired
period, one live period, one alert attached to each. -/
theorem alert_cleanup_gc_law_witness :
    (∀ p ∈ (cleanupAlerts 1000
        [⟨1, "a1", 0, 500⟩, ⟨2, "a2", 0, 2000⟩]
        [⟨1, "a1", none, none, none, none, none⟩,
         ⟨2, "a2", none, none, none, none, none⟩]).1, (1000 : Int) ≤ p.endTimestamp) ∧
    (∀ p ∈ [(⟨1, "a1", 0, 500⟩ : AlertActivePeriodRow), ⟨2, "a2", 0, 2000⟩],
      p.endTimestamp < 1000 →
      p ∉ (cleanupAlerts 1000
        [⟨1, "a1", 0, 500⟩, ⟨2, "a2", 0, 2000⟩]
        [⟨1, "a1", none, none, none, none, none⟩,
         ⟨2, "a2", none, none, none, none, none⟩]).1) ∧
    (∀ a ∈ [(⟨1, "a1", none, none, none, none, none⟩ : AlertRow),
            ⟨2, "a2", none, none, none, none, none⟩],
      (∀ p ∈ (cleanupAlerts 1000
        [⟨1, "a1", 0, 500⟩, ⟨2, "a2", 0, 2000⟩]
        [⟨1, "a1", none, none, none, none, none⟩,
         ⟨2, "a2", none, none, none, none, none⟩]).1, p.alertId ≠ a.alertId) →
      a ∉ (cleanupAlerts 1000
        [⟨1, "a1", 0, 500⟩, ⟨2, "a2", 0, 2000⟩]
        [⟨1, "a1", none, none, none, none, none⟩,
         ⟨2, "a2", none, none, none, none, none⟩]).2) ∧
    (∀ a ∈ (cleanupAlerts 1000
        [⟨1, "a1", 0, 500⟩, ⟨2, "a2", 0, 2000⟩]
        [⟨1, "a1", none, none, none, none, none⟩,
         ⟨2, "a2", none, none, none, none, none⟩]).2, ∃ p,
      p ∈ (cleanupAlerts 1000
        [⟨1, "a1", 0, 500⟩, ⟨2, "a2", 0, 2000⟩]
        [⟨1, "a1", none, none, none, none, none⟩,
         ⟨2, "a2", none, none, none, none, none⟩]).1 ∧ p.alertId = a.alertId ∧
        (1000 : Int) ≤ p.endTimestamp) :=
  alert_cleanup_gc_law 1000
    [⟨1, "a1", 0, 500⟩, ⟨2, "a2", 0, 2000⟩]
    [⟨1, "a1", none, none, none, none, none⟩,
     ⟨2, "a2", none, none, none, none, none⟩]

/-- The arrival-event row update on an affected row. -/
theorem applyArrivalRow_pos (runId seqAt delay : Int) (r : StiRow)
    (h : r.tripRunId = runId ∧ seqAt ≤ r.stopSequence) :
    applyArrivalRow runId seqAt delay r =
      { r with
        updatedArrivalTimestamp := some (r.arrivalTimestamp + delay * 1000) } :=
  if_pos h

/-- The arrival-event row update on an unaffected row. -/
theorem applyArrivalRow_neg (runId seqAt delay : Int) (r : StiRow)
    (h : ¬ (r.tripRunId = runId ∧ seqAt ≤ r.stopSequence)) :
    applyArrivalRow runId seqAt delay r = r :=
  if_neg h

/-- The departure-event row update leaves an already-updated row of this
TripRun alone when its sequence is not strictly later. -/
theorem applyDepartureRow_noop_of_updated (runId seqAt delay v : Int)
    (r : StiRow) (hn : ¬ (r.tripRunId = runId ∧ seqAt < r.stopSequence)) :
    applyDepartureRow runId seqAt delay
      { r with updatedArrivalTimestamp := some v } =
      { r with updatedArrivalTimestamp := some v } := by
  unfold applyDepartureRow
  rw [if_neg (by simpa using hn)]

/-- The departure-event row update overwrites an already-updated row of
this TripRun when its sequence is strictly later. -/
theorem applyDepartureRow_pos_of_updated (runId seqAt delay v : Int)
    (r : StiRow) (hp : r.tripRunId = runId ∧ seqAt < r.stopSequence) :
    applyDepartureRow runId seqAt delay
      { r with updatedArrivalTimestamp := some v } =
      { r with
        updatedArrivalTimestamp := some (r.arrivalTimestamp + delay * 1000) } := by
  unfold applyDepartureRow
  rw [if_pos (by simpa using hp)]

/-- C1: for a stop_time_update resolving to the stop with sequence `k` on a
TripRun: an arrival event carrying a delay of `d` seconds sets
`updated_arrival_timestamp = arrival_timestamp + d * 1000` on exactly the
rows of this TripRun with `stop_sequence ≥ k` (all their other columns
unchanged) and leaves every other row — smaller sequences and other
TripRuns — untouched; a departure event carrying delay `d` does the same on
exactly the rows with `stop_sequence > k`.  The first two conjuncts state
each event with the other absent; the third characterizes an update
carrying both (the handler applies arrival then departure, so the
departure delay wins on the strictly later rows). -/
theorem trip_update_delay_propagation
    (runId k : Int) (stopTimes rows : List StiRow) (u : StopTimeUpdate)
    (st : StiRow)
    (hres : findStopTime stopTimes u = Except.ok st)
    (hk : st.stopSequence = k) :
    (∀ ev d, u.arrival = some ev → ev.delay = some d → u.departure = none →
      ∃ rows2, applyStopTimeUpdate runId stopTimes rows u = Except.ok rows2 ∧
        rows2.length = rows.length ∧
        ∀ i : Nat, match rows.get? i, rows2.get? i with
          | some r, some r2 =>
              (r.tripRunId = runId → k ≤ r.stopSequence →
                r2 = { r with
                  updatedArrivalTimestamp := some (r.arrivalTimestamp + d * 1000) }) ∧
              (¬ (r.tripRunId = runId ∧ k ≤ r.stopSequence) → r2 = r)
          | _, _ => True) ∧
    (∀ ev d, u.departure = some ev → ev.delay = some d → u.arrival = none →
      ∃ rows2, applyStopTimeUpdate runId stopTimes rows u = Except.ok rows2 ∧
        rows2.length = rows.length ∧
        ∀ i : Nat, match rows.get? i, rows2.get? i with
          | some r, some r2 =>
              (r.tripRunId = runId → k < r.stopSequence →
                r2 = { r with
                  updatedArrivalTimestamp := some (r.arrivalTimestamp + d * 1000) }) ∧
              (¬ (r.tripRunId = runId ∧ k < r.stopSequence) → r2 = r)
          | _, _ => True) ∧
    (∀ evA dA evD dD, u.arrival = some evA → evA.delay = some dA →
      u.departure = some evD → evD.delay = some dD →
      ∃ rows2, applyStopTimeUpdate runId stopTimes rows u = Except.ok rows2 ∧
        rows2.length = rows.length ∧
        ∀ i : Nat, match rows.get? i, rows2.get? i with
          | some r, some r2 =>
              (r.tripRunId = runId → r.stopSequence = k →
                r2 = { r with
                  updatedArrivalTimestamp := some (r.arrivalTimestamp + dA * 1000) }) ∧
              (r.tripRunId = runId → k < r.stopSequence →
                r2 = { r with
                  updatedArrivalTimestamp := some (r.arrivalTimestamp + dD * 1000) }) ∧
              (¬ (r.tripRunId = runId ∧ k ≤ r.stopSequence) → r2 = r)
          | _, _ => True) := by
  subst hk
  refine ⟨?_, ?_, ?_⟩
  · intro ev d hA hd hD
    refine ⟨updateArrivalsFrom rows runId st.stopSequence d, ?_, ?_, ?_⟩
    · simp [applyStopTimeUpdate, hres, hA, hD, arrivalDelay, hd]
    · simp [updateArrivalsFrom]
    · intro i
      rw [updateArrivalsFrom, List.get?_map]
      cases h : rows.get? i with
      | none => exact trivial
      | some r =>
          refine ⟨fun h1 h2 => ?_, fun hn => ?_⟩
          · exact if_pos ⟨h1, h2⟩
          · exact if_neg hn
  · intro ev d hD hd hA
    refine ⟨updateArrivalsAfter rows runId st.stopSequence d, ?_, ?_, ?_⟩
    · simp [applyStopTimeUpdate, hres, hA, hD, departureDelay, hd]
    · simp [updateArrivalsAfter]
    · intro i
      rw [updateArrivalsAfter, List.get?_map]
      cases h : rows.get? i with
      | none => exact trivial
      | some r =>
          refine ⟨fun h1 h2 => ?_, fun hn => ?_⟩
          · exact if_pos ⟨h1, h2⟩
          · exact if_neg hn
  · intro evA dA evD dD hA hdA hD hdD
    refine ⟨updateArrivalsAfter
      (updateArrivalsFrom rows runId st.stopSequence dA)
      runId st.stopSequence dD, ?_, ?_, ?_⟩
    · simp [applyStopTimeUpdate, hres, hA, hD, arrivalDelay, departureDelay,
        hdA, hdD]
    · simp [updateArrivalsAfter, updateArrivalsFrom]
    · intro i
      rw [updateArrivalsAfter, updateArrivalsFrom, List.get?_map,
        List.get?_map]
      cases h : rows.get? i with
      | none => exact trivial
      | some r =>
          refine ⟨fun h1 h2 => ?_, fun h1 h2 => ?_, fun hn => ?_⟩
          · rw [applyArrivalRow_pos runId st.stopSequence dA r
                ⟨h1, le_of_eq h2.symm⟩,
              applyDepartureRow_noop_of_updated runId st.stopSequence dD _ r
                (fun hc => absurd (h2 ▸ hc.2) (lt_irrefl _))]
          · rw [applyArrivalRow_pos runId st.stopSequence dA r
                ⟨h1, le_of_lt h2⟩,
              applyDepartureRow_pos_of_updated runId st.stopSequence dD _ r
                ⟨h1, h2⟩]
          · rw [applyArrivalRow_neg runId st.stopSequence dA r hn]
            exact if_neg (fun hc => hn ⟨hc.1, le_of_lt hc.2⟩)

/-- Closed instance of C1 at scenario S4: arrival delay 60 at sequence 2 on
the three-row TripRun. -/
theorem trip_update_delay_propagation_witness :
    ∃ rows2,
      applyStopTimeUpdate 7 s4Rows s4Rows s4Update = Except.ok rows2 ∧
        rows2.length = s4Rows.length ∧
        ∀ i : Nat, match s4Rows.get? i, rows2.get? i with
          | some r, some r2 =>
              (r.tripRunId = 7 → (2 : Int) ≤ r.stopSequence →
                r2 = { r with
                  updatedArrivalTimestamp := some (r.arrivalTimestamp + 60 * 1000) }) ∧
              (¬ (r.tripRunId = 7 ∧ (2 : Int) ≤ r.stopSequence) → r2 = r)
          | _, _ => True := by
  have h := trip_update_delay_propagation 7 2 s4Rows s4Rows s4Update
    ⟨"s2", 2, "T", 7, 1707100060000, 1707100060000, none⟩ (by rfl) rfl
  exact h.1 ⟨some 60, none, none⟩ 60 rfl rfl rfl

/-- No conflict can put a foreign generation on a row: an upsert at
generation `g` over rows already at `g` yields rows at `g`. -/
theorem upsertRow_allRowsAt {K D : Type} [DecidableEq K]
    {t : List (TableRow K D)} {g : Int} (k : K) (d : D)
    (h : AllRowsAt g t) : AllRowsAt g (upsertRow t k d g) := by
  intro r hr
  unfold upsertRow at hr
  by_cases hc : t.any (fun r => r.key == k)
  · rw [if_pos hc] at hr
    rcases List.mem_map.mp hr with ⟨r0, hr0, hval⟩
    by_cases hk : r0.key == k
    · rw [if_pos hk] at hval; rw [← hval]
    · rw [if_neg hk] at hval; rw [← hval]; exact h r0 hr0
  · rw [if_neg hc] at hr
    rcases List.mem_append.mp hr with hmem | hmem
    · exact h r hmem
    · simp at hmem; rw [hmem]

/-- Folding the per-row upsert over a CSV keeps every row at `g`. -/
theorem foldl_upsert_allRowsAt {K D : Type} [DecidableEq K]
    (csv : List (K × D)) {t : List (TableRow K D)} {g : Int}
    (h : AllRowsAt g t) :
    AllRowsAt g (csv.foldl (fun t rd => upsertRow t rd.1 rd.2 g) t) := by
  induction csv generalizing t with
  | nil => exact h
  | cons rd rest ih => exact ih (upsertRow_allRowsAt rd.1 rd.2 h)

/-- `insert_from_csv` on a keyed table whose rows all predate `g` leaves
only rows at `g`. -/
theorem insertFromCsv_allRowsAt {K D : Type} [DecidableEq K]
    (g : Int) (csv : List (K × D)) (table : List (TableRow K D))
    (h : AllRowsBelow g table) : AllRowsAt g (insertFromCsv g csv table) := by
  unfold insertFromCsv
  refine foldl_upsert_allRowsAt csv ?_
  intro r hr
  have h1 := (List.mem_filter.mp hr).1
  have h2 := (List.mem_filter.mp hr).2
  exact absurd (h r h1) (by simpa using h2)

/-- The keyless feed_info variant of the previous lemma. -/
theorem insertFromCsvNoKey_allRowsAt {D : Type}
    (g : Int) (csv : List D) (table : List (TableRow Unit D))
    (h : AllRowsBelow g table) : AllRowsAt g (insertFromCsvNoKey g csv table) := by
  intro r hr
  unfold insertFromCsvNoKey at hr
  rcases List.mem_append.mp hr with hmem | hmem
  · have h1 := (List.mem_filter.mp hmem).1
    have h2 := (List.mem_filter.mp hmem).2
    exact absurd (h r h1) (by simpa using h2)
  · rcases List.mem_map.mp hmem with ⟨d, _, hval⟩
    rw [← hval]

/-- C4: a `sync()` that performed an ingest (the stored `Last-Modified`
differs from the response's) rewrites the nine schedule tables so that
every remaining row carries the fresh generation `G` — the id of the new
Import row — given that all pre-existing rows predate `G`. -/
theorem sync_generation_ownership {α : Type} [DecidableEq α]
    (now : Int) (resp : ArchiveResponse α) (st : SyncState α)
    (hfresh : TablesBelow (nextImportId st.imports) st.tables)
    (hingest : (getLastImport st.imports).bind (fun i => i.fileLastModified) ≠
      resp.lastModified) :
    TablesAt (nextImportId st.imports) (doSync now resp st).2.tables := by
  simp only [doSync, getGtfsFilesFromZip]
  rw [if_neg hingest]
  obtain ⟨h1, h2, h3, h4, h5, h6, h7, h8, h9⟩ := hfresh
  exact ⟨insertFromCsvNoKey_allRowsAt _ _ _ h1,
    insertFromCsv_allRowsAt _ _ _ h2, insertFromCsv_allRowsAt _ _ _ h3,
    insertFromCsv_allRowsAt _ _ _ h4, insertFromCsv_allRowsAt _ _ _ h5,
    insertFromCsv_allRowsAt _ _ _ h6, insertFromCsv_allRowsAt _ _ _ h7,
    insertFromCsv_allRowsAt _ _ _ h8, insertFromCsv_allRowsAt _ _ _ h9⟩

/-- Closed instance of C4: one old agency row at generation 1, a CSV that
overwrites it, fresh generation 2. -/
theorem sync_generation_ownership_witness :
    TablesBelow (α := Unit) 2
      ⟨[], [⟨"a", (), 1⟩], [], [], [], [], [], [], []⟩ ∧
    ((getLastImport [⟨1, some "old", 5⟩]).bind (fun i => i.fileLastModified) ≠
      some "new") ∧
    TablesAt (α := Unit) 2
      (doSync 50
        { lastModified := some "new"
          files := ⟨[], [("a", ())], [], [], [], [], [], [], []⟩ }
        { imports := [⟨1, some "old", 5⟩]
          tables := ⟨[], [⟨"a", (), 1⟩], [], [], [], [], [], [], []⟩
          services := [] }).2.tables :=
  ⟨by unfold TablesBelow AllRowsBelow; decide, by decide,
    sync_generation_ownership 50
      { lastModified := some "new"
        files := ⟨[], [("a", ())], [], [], [], [], [], [], []⟩ }
      { imports := [⟨1, some "old", 5⟩]
        tables := ⟨[], [⟨"a", (), 1⟩], [], [], [], [], [], [], []⟩
        services := [] }
      (by unfold TablesBelow AllRowsBelow; decide) (by decide)⟩

set_option maxRecDepth 4000 in
/-- C5 counterexample: the claim says the rebuild errors whenever a day's
rows contain a row of a trip whose stop_sequence-1 row has not been seen
before it.  Here trip B's sequence-2 row follows trip A's sequence-1 row:
the rebuild succeeds and silently files B's row under A's TripRun (run id
1, the only TripRun created). -/
theorem index_missing_first_stop_row_no_error :
    doBuildStopTimeIndexCore
        [⟨"20240205", [⟨"s1", 1, "A", 1000, 2000, "r", 0⟩,
                       ⟨"s2", 2, "B", 3000, 4000, "r", 0⟩]⟩]
        ⟨[], [], [], [], [], [], none, 1⟩ =
      Except.ok ⟨[], [], [], [],
        [⟨1, "A", "r", 0, "20240205", 2000, none, 0⟩],
        [⟨"s1", 1, "A", 1, 1000, 2000, none⟩,
         ⟨"s2", 2, "B", 1, 3000, 4000, none⟩],
        some 10, 2⟩ := by
  rfl

/-- A day whose first streamed row is not a stop_sequence-1 row makes the
day loop fail with "No trip run id". -/
theorem processDay_error_of_head_not_first (s : DayLoopState)
    (day : DayStream) (r : DayRow) (hhead : day.rows.head? = some r)
    (hseq : r.stopSequence ≠ 1) :
    processDay s day = Except.error (.other "No trip run id") := by
  obtain ⟨rest, hrows⟩ : ∃ rest, day.rows = r :: rest := by
    cases hr : day.rows with
    | nil => rw [hr] at hhead; cases hhead
    | cons a t =>
        rw [hr] at hhead
        simp only [List.head?_cons, Option.some_inj] at hhead
        exact ⟨t, by rw [hhead]⟩
  have hseqb : (r.stopSequence == 1) = false := by
    simpa using hseq
  have hstep : processDayRow day.date none s r =
      Except.error (.other "No trip run id") := by
    unfold processDayRow
    rw [hseqb]
    rfl
  unfold processDay
  rw [hrows, List.foldlM_cons, hstep]
  rfl

/-- Sequential day processing fails as soon as some day's stream opens with
a row that is not a stop_sequence-1 row. -/
theorem foldlM_processDay_error (days : List DayStream) (s : DayLoopState)
    (day : DayStream) (r : DayRow) (hmem : day ∈ days)
    (hhead : day.rows.head? = some r) (hseq : r.stopSequence ≠ 1) :
    ∃ e, days.foldlM processDay s = Except.error e := by
  induction days generalizing s with
  | nil => cases hmem
  | cons d rest ih =>
      rw [List.foldlM_cons]
      rcases List.mem_cons.mp hmem with heq | hmem2
      · rw [processDay_error_of_head_not_first s d r (heq ▸ hhead) hseq]
        exact ⟨.other "No trip run id", rfl⟩
      · cases hpd : processDay s d with
        | error e => exact ⟨e, rfl⟩
        | ok s2 =>
            rcases ih s2 hmem2 with ⟨e, he⟩
            exact ⟨e, by simpa using he⟩

/-- C5 (amended): the rebuild errors — and its transaction rolls back,
committing no partial index — when a row arrives before any
stop_sequence-1 row of that day's stream, i.e. when some day's stream opens
with a row whose stop_sequence is not 1.  (A later trip whose first-stop
row is missing does not error: its rows are attached to the most recently
created TripRun, see the counterexample.) -/
theorem index_rebuild_error_rollback
    (days : List DayStream) (db : Db) (day : DayStream) (r : DayRow)
    (hmem : day ∈ days) (hhead : day.rows.head? = some r)
    (hseq : r.stopSequence ≠ 1) :
    (∃ e, doBuildStopTimeIndexCore days db = Except.error e) ∧
      doBuildStopTimeIndex days db = db := by
  obtain ⟨e, he⟩ := foldlM_processDay_error days
    ⟨{ db with tripRuns := [], stopTimeIndex := [] }, initCounts⟩
    day r hmem hhead hseq
  have hcore : doBuildStopTimeIndexCore days db = Except.error e := by
    simp only [doBuildStopTimeIndexCore]
    rw [he]
    rfl
  refine ⟨⟨e, hcore⟩, ?_⟩
  unfold doBuildStopTimeIndex
  rw [hcore]

/-- Closed instance of the amended C5: a single day opening with a
sequence-2 row errors and leaves the database exactly as before. -/
theorem index_rebuild_error_rollback_witness :
    (∃ e, doBuildStopTimeIndexCore
        [⟨"20240205", [⟨"s2", 2, "B", 3000, 4000, "r", 0⟩]⟩]
        ⟨[], [], [], [], [], [], none, 1⟩ = Except.error e) ∧
      doBuildStopTimeIndex
        [⟨"20240205", [⟨"s2", 2, "B", 3000, 4000, "r", 0⟩]⟩]
        ⟨[], [], [], [], [], [], none, 1⟩ =
        ⟨[], [], [], [], [], [], none, 1⟩ :=
  index_rebuild_error_rollback _ _
    ⟨"20240205", [⟨"s2", 2, "B", 3000, 4000, "r", 0⟩]⟩
    ⟨"s2", 2, "B", 3000, 4000, "r", 0⟩
    (List.mem_singleton.mpr rfl) rfl (by decide)

/-- C8: when the archive response's `Last-Modified` equals the value stored
on the most recent Import row, `sync()` returns 0 and leaves the whole
state — imports, the nine schedule tables and the service table —
untouched. -/
theorem sync_no_change_noop {α : Type} [DecidableEq α] (now : Int)
    (resp : ArchiveResponse α) (st : SyncState α)
    (h : (getLastImport st.imports).bind (fun i => i.fileLastModified) =
      resp.lastModified) :
    doSync now resp st = (0, st) := by
  unfold doSync getGtfsFilesFromZip
  simp [h]

/-- Closed instance of the no-change no-op: a state with one Import row
whose stored value matches the response header. -/
theorem sync_no_change_noop_witness :
    doSync (α := Unit) 99
      { lastModified := some "Mon, 05 Feb 2024 00:00:00 GMT", files :=
        ⟨[], [], [], [], [], [], [], [], []⟩ }
      { imports := [⟨1, some "Mon, 05 Feb 2024 00:00:00 GMT", 10⟩]
        tables := ⟨[], [], [], [], [], [], [], [], []⟩
        services := [] } =
    (0, { imports := [⟨1, some "Mon, 05 Feb 2024 00:00:00 GMT", 10⟩]
          tables := ⟨[], [], [], [], [], [], [], [], []⟩
          services := [] }) :=
  sync_no_change_noop 99 _ _ (by rfl)

/-- Bumping a bin of a full 144-bin histogram in canonical form increments
exactly that bin. -/
theorem bumpPeriod_canonical (f : Nat → Nat) (p : Int) (h0 : 0 ≤ p)
    (h1 : p < 144) :
    bumpPeriod ((List.range 144).map fun (i : Nat) => ((i : Int), f i)) p =
      (List.range 144).map fun (i : Nat) =>
        ((i : Int), if (i : Int) = p then f i + 1 else f i) := by
  have hmem : ((List.range 144).map fun (i : Nat) => ((i : Int), f i)).any
      (fun e => e.1 == p) = true := by
    rw [List.any_eq_true]
    refine ⟨((p.toNat : Int), f p.toNat), ?_, ?_⟩
    · exact List.mem_map.mpr ⟨p.toNat, List.mem_range.mpr (by omega), by
        rw [Int.toNat_of_nonneg h0]⟩
    · simp [Int.toNat_of_nonneg h0]
  unfold bumpPeriod
  rw [if_pos hmem, List.map_map]
  refine List.map_congr_left ?_
  intro i _
  by_cases hip : (i : Int) = p
  · simp [hip]
  · simp [hip]

/-- Folding the per-arrival bump over in-range periods adds each bin's
occurrence count to the canonical histogram. -/
theorem foldl_bumpPeriod_canonical (ps : List Int) :
    ∀ f : Nat → Nat, (∀ p ∈ ps, 0 ≤ p ∧ p < 144) →
      ps.foldl bumpPeriod ((List.range 144).map fun (i : Nat) => ((i : Int), f i)) =
        (List.range 144).map fun (i : Nat) =>
          ((i : Int), f i + ps.count (i : Int)) := by
  induction ps with
  | nil =>
      intro f _
      simp
  | cons p rest ih =>
      intro f hall
      rw [List.foldl_cons,
        bumpPeriod_canonical f p (hall p (by simp)).1 (hall p (by simp)).2,
        ih (fun i => if (i : Int) = p then f i + 1 else f i)
          (fun q hq => hall q (by simp [hq]))]
      refine List.map_congr_left ?_
      intro i _
      rw [List.count_cons]
      by_cases hip : (i : Int) = p
      · have hb : (p == (i : Int)) = true := beq_iff_eq.mpr hip.symm
        rw [if_pos hip, if_pos hb]
        have harith : f i + 1 + List.count ((i : Int)) rest =
            f i + (List.count ((i : Int)) rest + 1) := by omega
        rw [harith]
      · have hb : (p == (i : Int)) = false :=
          beq_eq_false_iff_ne.mpr (fun hpe => hip hpe.symm)
        rw [if_neg hip, hb]
        simp

/-- The fold behind `min_by_key`: the result is an element of the list and
its count is minimal. -/
theorem minFold_mem_le (rest : List (Int × Nat)) :
    ∀ e : Int × Nat,
      (rest.foldl (fun acc x => if x.2 < acc.2 then x else acc) e) ∈ e :: rest ∧
      (rest.foldl (fun acc x => if x.2 < acc.2 then x else acc) e).2 ≤ e.2 ∧
      ∀ x ∈ rest,
        (rest.foldl (fun acc x => if x.2 < acc.2 then x else acc) e).2 ≤ x.2 := by
  induction rest with
  | nil =>
      intro e
      refine ⟨List.mem_singleton.mpr rfl, le_refl _, ?_⟩
      intro x hx
      cases hx
  | cons y t ih =>
      intro e
      rw [List.foldl_cons]
      obtain ⟨hmem, hle, hall⟩ := ih (if y.2 < e.2 then y else e)
      have hstep2 : (if y.2 < e.2 then y else e).2 ≤ e.2 := by
        by_cases hc : y.2 < e.2
        · rw [if_pos hc]
          exact le_of_lt hc
        · rw [if_neg hc]
      have hstep2y : (if y.2 < e.2 then y else e).2 ≤ y.2 := by
        by_cases hc : y.2 < e.2
        · rw [if_pos hc]
        · rw [if_neg hc]
          omega
      refine ⟨?_, le_trans hle hstep2, ?_⟩
      · rcases List.mem_cons.mp hmem with h1 | h2
        · rw [h1]
          by_cases hc : y.2 < e.2
          · rw [if_pos hc]
            exact List.mem_cons_of_mem _ (List.mem_cons_self _ _)
          · rw [if_neg hc]
            exact List.mem_cons_self _ _
        · exact List.mem_cons_of_mem _ (List.mem_cons_of_mem _ h2)
      · intro x hx
        rcases List.mem_cons.mp hx with h1 | h2
        · rw [h1]
          exact le_trans hle hstep2y
        · exact hall x h2

/-- `minByCount` returns an element of the list whose count is minimal. -/
theorem minByCount_spec (l : List (Int × Nat)) (m : Int × Nat)
    (h : minByCount l = some m) : m ∈ l ∧ ∀ x ∈ l, m.2 ≤ x.2 := by
  match l, h with
  | e :: rest, h =>
      simp only [minByCount, Option.some_inj] at h
      obtain ⟨hmem, hle, hall⟩ := minFold_mem_le rest e
      rw [h] at hmem hle hall
      refine ⟨hmem, ?_⟩
      intro x hx
      rcases List.mem_cons.mp hx with h1 | h2
      · rw [h1]
        exact hle
      · exact hall x h2

/-- A streamed row that processes successfully bumps its arrival's bin and
appends exactly one index row carrying its arrival instant. -/
theorem processDayRow_ok_proj (date : String) (runIdOpt : Option Int)
    (s : DayLoopState) (r : DayRow) (o : Option Int × DayLoopState)
    (h : processDayRow date runIdOpt s r = Except.ok o) :
    o.2.counts = bumpPeriod s.counts (histPeriod r.arrivalMillis) ∧
    o.2.db.stopTimeIndex.map (fun x => x.arrivalTimestamp) =
      s.db.stopTimeIndex.map (fun x => x.arrivalTimestamp) ++
        [r.arrivalMillis] := by
  by_cases hs : (r.stopSequence == 1) = true
  · simp only [processDayRow, hs, if_true] at h
    cases h
    constructor
    · rfl
    · simp
  · rw [Bool.not_eq_true] at hs
    simp only [processDayRow, hs, if_false] at h
    cases runIdOpt with
    | none => cases h
    | some id =>
        cases h
        constructor
        · rfl
        · simp

/-- One day's successful processing folds the bump over its rows and
appends their arrivals to the index, in stream order. -/
theorem processDay_ok_proj (s : DayLoopState) (day : DayStream)
    (s2 : DayLoopState) (h : processDay s day = Except.ok s2) :
    s2.counts = day.rows.foldl
      (fun c r => bumpPeriod c (histPeriod r.arrivalMillis)) s.counts ∧
    s2.db.stopTimeIndex.map (fun x => x.arrivalTimestamp) =
      s.db.stopTimeIndex.map (fun x => x.arrivalTimestamp) ++
        day.rows.map (fun r => r.arrivalMillis) := by
  have main : ∀ (rows : List DayRow) (ri : Option Int) (s : DayLoopState)
      (out : Option Int × DayLoopState),
      rows.foldlM (fun acc r => processDayRow day.date acc.1 acc.2 r)
        (ri, s) = Except.ok out →
      out.2.counts = rows.foldl
        (fun c r => bumpPeriod c (histPeriod r.arrivalMillis)) s.counts ∧
      out.2.db.stopTimeIndex.map (fun x => x.arrivalTimestamp) =
        s.db.stopTimeIndex.map (fun x => x.arrivalTimestamp) ++
          rows.map (fun r => r.arrivalMillis) := by
    intro rows
    induction rows with
    | nil =>
        intro ri s out h
        simp only [List.foldlM_nil] at h
        cases h
        exact ⟨rfl, by simp⟩
    | cons r rest ih =>
        intro ri s out h
        rw [List.foldlM_cons] at h
        cases hstep : processDayRow day.date ri s r with
        | error e =>
            rw [hstep] at h
            cases h
        | ok o =>
            rw [hstep] at h
            obtain ⟨hc1, hi1⟩ := processDayRow_ok_proj day.date ri s r o hstep
            obtain ⟨hc2, hi2⟩ := ih o.1 o.2 out h
            constructor
            · rw [List.foldl_cons, ← hc1]
              exact hc2
            · rw [List.map_cons, hi2, hi1, List.append_assoc]
              rfl
  unfold processDay at h
  cases hfold : day.rows.foldlM
      (fun acc r => processDayRow day.date acc.1 acc.2 r)
      ((none : Option Int), s) with
  | error e =>
      rw [hfold] at h
      cases h
  | ok out =>
      rw [hfold] at h
      cases h
      exact main day.rows none s out hfold

/-- Successful streaming of all indexed dates folds the bump over every
materialized arrival and appends them all to the index, in order. -/
theorem foldlM_processDay_ok_proj (days : List DayStream) :
    ∀ s out : DayLoopState,
      days.foldlM processDay s = Except.ok out →
      out.counts = (materializedArrivals days).foldl
        (fun c a => bumpPeriod c (histPeriod a)) s.counts ∧
      out.db.stopTimeIndex.map (fun x => x.arrivalTimestamp) =
        s.db.stopTimeIndex.map (fun x => x.arrivalTimestamp) ++
          materializedArrivals days := by
  induction days with
  | nil =>
      intro s out h
      simp only [List.foldlM_nil] at h
      cases h
      exact ⟨rfl, by simp [materializedArrivals]⟩
  | cons day rest ih =>
      intro s out h
      rw [List.foldlM_cons] at h
      cases hd : processDay s day with
      | error e =>
          rw [hd] at h
          cases h
      | ok s1 =>
          rw [hd] at h
          obtain ⟨hc1, hi1⟩ := processDay_ok_proj s day s1 hd
          obtain ⟨hc2, hi2⟩ := ih s1 out h
          have hma : materializedArrivals (day :: rest) =
              day.rows.map (fun r => r.arrivalMillis) ++
                materializedArrivals rest := by
            simp [materializedArrivals]
          constructor
          · rw [hma, List.foldl_append, hc2, hc1, List.foldl_map]
          · rw [hma, hi2, hi1, List.append_assoc]

/-- Every ten-minute bin of a non-negative arrival is one of the 144 bins
of the day. -/
theorem histPeriod_range (a : Int) (h : 0 ≤ a) :
    0 ≤ histPeriod a ∧ histPeriod a < 144 := by
  unfold histPeriod
  have h1 : Int.tmod a 86400000 = a % 86400000 :=
    Int.tmod_eq_emod h (by norm_num)
  have h2 : (a % 86400000).tdiv 600000 = (a % 86400000) / 600000 :=
    Int.tdiv_eq_ediv (Int.emod_nonneg a (by norm_num)) (by norm_num)
  rw [h1, h2]
  omega

/-- Occurrences of a bin among the arrivals' periods are exactly the
specification-side histogram count. -/
theorem count_periods_eq_specBinCount (arrivals : List Int) (b : Int) :
    (arrivals.map histPeriod).count b = specBinCount arrivals b := by
  rw [List.count, List.countP_map, specBinCount,
    ← List.countP_eq_length_filter]
  rfl

/-- C9: after a successful rebuild, the index materializes exactly the
streamed arrivals, and `MaintenanceTime.minute_of_day = b * 10` for a bin
`b` of minimum count in the 144-bin histogram over
`floor((arrival_ms mod 86400000) / 600000)` of all materialized arrival
timestamps; in particular the minute lies in {0, 10, …, 1430}. -/
theorem maintenance_minute_min_bin (days : List DayStream) (db db2 : Db)
    (hok : doBuildStopTimeIndexCore days db = Except.ok db2)
    (hpos : ∀ a ∈ materializedArrivals days, 0 ≤ a) :
    db2.stopTimeIndex.map (fun x => x.arrivalTimestamp) =
      materializedArrivals days ∧
    ∃ b : Int, 0 ≤ b ∧ b < 144 ∧ db2.maintenanceMinute = some (b * 10) ∧
      ∀ j : Int, 0 ≤ j → j < 144 →
        specBinCount (materializedArrivals days) b ≤
          specBinCount (materializedArrivals days) j := by
  simp only [doBuildStopTimeIndexCore] at hok
  cases hfold : List.foldlM processDay
      ⟨{ db with tripRuns := [], stopTimeIndex := [] }, initCounts⟩ days with
  | error e =>
      rw [hfold] at hok
      cases hok
  | ok s =>
      rw [hfold] at hok
      simp only [Bind.bind, Except.bind] at hok
      obtain ⟨hc, hi⟩ := foldlM_processDay_ok_proj days _ s hfold
      cases hmin : minByCount s.counts with
      | none =>
          rw [hmin] at hok
          cases hok
      | some m =>
          rw [hmin] at hok
          cases hok
          have hperiods : ∀ p ∈ (materializedArrivals days).map histPeriod,
              0 ≤ p ∧ p < 144 := by
            intro p hp
            rcases List.mem_map.mp hp with ⟨a, ha, rfl⟩
            exact histPeriod_range a (hpos a ha)
          have hcounts : s.counts = (List.range 144).map fun (i : Nat) =>
              ((i : Int), (0 : Nat) +
                ((materializedArrivals days).map histPeriod).count (i : Int)) := by
            rw [hc]
            have : (materializedArrivals days).foldl
                (fun c a => bumpPeriod c (histPeriod a)) initCounts =
                ((materializedArrivals days).map histPeriod).foldl
                  bumpPeriod initCounts := by
              rw [List.foldl_map]
            rw [this]
            exact foldl_bumpPeriod_canonical _ (fun _ => 0) hperiods
          obtain ⟨hmem, hmi⟩ := minByCount_spec s.counts m hmin
          rw [hcounts] at hmem hmi
          rcases List.mem_map.mp hmem with ⟨i, hi144, hmeq⟩
          have hi144n := List.mem_range.mp hi144
          refine ⟨by simpa using hi, (i : Int), by omega, by omega, ?_, ?_⟩
          · show some (m.1 * 10) = some ((i : Int) * 10)
            rw [← hmeq]
          · intro j hj0 hj144
            have hjmem : ((j.toNat : Int), (0 : Nat) +
                ((materializedArrivals days).map histPeriod).count
                  (j.toNat : Int)) ∈ (List.range 144).map fun (i : Nat) =>
                ((i : Int), (0 : Nat) +
                  ((materializedArrivals days).map histPeriod).count (i : Int)) :=
              List.mem_map.mpr ⟨j.toNat, List.mem_range.mpr (by omega), rfl⟩
            have hle := hmi _ hjmem
            rw [← hmeq] at hle
            have hjeq : (j.toNat : Int) = j := Int.toNat_of_nonneg hj0
            rw [hjeq] at hle
            calc specBinCount (materializedArrivals days) (i : Int) =
                  ((materializedArrivals days).map histPeriod).count (i : Int) :=
                    (count_periods_eq_specBinCount _ _).symm
              _ ≤ ((materializedArrivals days).map histPeriod).count j := by
                    simpa using hle
              _ = specBinCount (materializedArrivals days) j :=
                    count_periods_eq_specBinCount _ _

/-- Closed instance of C9: one row arriving at 700000 ms lands in bin 1;
the minimum-count bin chosen is 0 and the maintenance minute 0. -/
theorem maintenance_minute_min_bin_witness :
    (∀ a ∈ materializedArrivals
        [⟨"20240205", [⟨"s1", 1, "A", 700000, 800000, "r", 0⟩]⟩], 0 ≤ a) ∧
    ((doBuildStopTimeIndex
        [⟨"20240205", [⟨"s1", 1, "A", 700000, 800000, "r", 0⟩]⟩]
        ⟨[], [], [], [], [], [], none, 1⟩).stopTimeIndex.map
          (fun x => x.arrivalTimestamp) =
      materializedArrivals
        [⟨"20240205", [⟨"s1", 1, "A", 700000, 800000, "r", 0⟩]⟩] ∧
    ∃ b : Int, 0 ≤ b ∧ b < 144 ∧
      (doBuildStopTimeIndex
        [⟨"20240205", [⟨"s1", 1, "A", 700000, 800000, "r", 0⟩]⟩]
        ⟨[], [], [], [], [], [], none, 1⟩).maintenanceMinute = some (b * 10) ∧
      ∀ j : Int, 0 ≤ j → j < 144 →
        specBinCount (materializedArrivals
          [⟨"20240205", [⟨"s1", 1, "A", 700000, 800000, "r", 0⟩]⟩]) b ≤
        specBinCount (materializedArrivals
          [⟨"20240205", [⟨"s1", 1, "A", 700000, 800000, "r", 0⟩]⟩]) j) :=
  ⟨by decide,
    maintenance_minute_min_bin
      [⟨"20240205", [⟨"s1", 1, "A", 700000, 800000, "r", 0⟩]⟩]
      ⟨[], [], [], [], [], [], none, 1⟩ _ rfl (by decide)⟩

end NextAt
